import Mathlib

/-!
# Verification of Win32StringUtils string utilities

Shallow embedding of `StringUtils.h` (namespace `win32`) from the
Win32StringUtils repository, together with proofs of the specified
properties of its hex formatters, printf-style formatter and resource
string loader.

Wide strings (`std::wstring`) are modelled as lists of natural numbers,
each element a UTF-16 code unit (the value of one `wchar_t`).
Fixed-width unsigned integers (`BYTE`, `WORD`, `DWORD`) are modelled as
`Nat`; the implicit conversions of the C++ source appear as explicit
`% 2^w` operations exactly where the source performs a cast or where a
parameter of that width receives a value.  `HRESULT` is a signed 32-bit
integer, modelled as `Int`.
-/

namespace Win32StringUtils

/-- A `std::wstring` value: the list of its `wchar_t` code units. -/
abbrev WStr := List Nat

/-- Code units of a Lean string literal, for stating expected outputs. -/
def wof (s : String) : WStr := s.data.map Char.toNat

/-- Embedding of `win32::detail::FormatLowNibble`:
masks out the high nibble (`b & 0x0F`) and returns the `wchar_t`
holding the hex digit of the low nibble (`'0' + v` for `v < 10`,
`'A' + (v - 10)` otherwise).  `L'0' = 48`, `L'A' = 65`. -/
def FormatLowNibble (b : Nat) : Nat :=
  let lowNibble := b % 16
  if lowNibble < 10 then
    48 + lowNibble
  else
    65 + (lowNibble - 10)

/-- Embedding of `win32::FormatByte`: the two-element array
`{FormatLowNibble (b >> 4), FormatLowNibble b}` turned into a wstring.
The parameter is a `BYTE`, so callers pass values reduced `% 256`. -/
def FormatByte (b : Nat) : WStr :=
  [FormatLowNibble (b / 16), FormatLowNibble b]

/-- Embedding of `win32::FormatWord`: splits the `WORD` into
`highByte = static_cast<BYTE>(w >> 8)` and
`lowByte = static_cast<BYTE>(w & 0x00FF)` and emits the four hex
digits high-byte first.  The `static_cast<BYTE>` is the `% 256`. -/
def FormatWord (w : Nat) : WStr :=
  let highByte := (w / 256) % 256
  let lowByte := (w % 256) % 256
  [FormatLowNibble (highByte / 16), FormatLowNibble highByte,
   FormatLowNibble (lowByte / 16), FormatLowNibble lowByte]

/-- Embedding of `win32::FormatDword`: splits the `DWORD` into
`lowWord = dw & 0x0000FFFF` and `highWord = static_cast<WORD>(dw >> 16)`
and concatenates `FormatWord highWord ++ FormatWord lowWord`. -/
def FormatDword (dw : Nat) : WStr :=
  let lowWord := (dw % 65536) % 65536
  let highWord := (dw / 65536) % 65536
  FormatWord highWord ++ FormatWord lowWord

/-- Embedding of `win32::FormatHResult`: the signed 32-bit `HRESULT` is
implicitly converted to the unsigned `DWORD` parameter of
`FormatDword`, i.e. reduced modulo `2^32` (two's complement
reinterpretation). -/
def FormatHResult (hr : Int) : WStr :=
  FormatDword (hr % (2 ^ 32 : Int)).toNat

/-- A `wchar_t` code unit that is an uppercase hex digit:
one of `0`-`9` (48-57) or `A`-`F` (65-70). -/
def IsUpperHexDigit (c : Nat) : Prop :=
  (48 ≤ c ∧ c ≤ 57) ∨ (65 ≤ c ∧ c ≤ 70)

instance (c : Nat) : Decidable (IsUpperHexDigit c) := by
  unfold IsUpperHexDigit; infer_instance

/-- The standard hex digit for a nibble value, written from the spec's
words: character `'0' + v` if `v < 10`, else `'A' + (v - 10)`; used as
the specification-side rendering to compare the code against. -/
def specHexDigit (v : Nat) : Nat :=
  if v < 10 then 48 + v else 65 + (v - 10)

/-- The standard two-digit uppercase hex rendering of a byte, written
from the spec's words: most significant nibble first. -/
def specHexByte (b : Nat) : WStr :=
  [specHexDigit (b / 16), specHexDigit (b % 16)]

/-- `FormatLowNibble` depends only on the low nibble and agrees with
the standard digit map. -/
lemma formatLowNibble_eq (b : Nat) :
    FormatLowNibble b = specHexDigit (b % 16) := by
  unfold FormatLowNibble specHexDigit
  simp

lemma specHexDigit_upperHex {v : Nat} (hv : v < 16) :
    IsUpperHexDigit (specHexDigit v) := by
  unfold specHexDigit IsUpperHexDigit
  split <;> omega

lemma formatLowNibble_upperHex (b : Nat) :
    IsUpperHexDigit (FormatLowNibble b) := by
  rw [formatLowNibble_eq]
  exact specHexDigit_upperHex (Nat.mod_lt _ (by omega))

/-- An argument passed through `StringPrintf`'s variadic `...`:
a wide string (consumed by `%s`) or an `int` (consumed by `%d`). -/
inductive PrintfArg where
  | str : WStr → PrintfArg
  | int : Int → PrintfArg

/-- Decimal rendering of an `int`, as the CRT's `%d` directive
produces it: an optional minus sign followed by the decimal digits. -/
def intDec (n : Int) : WStr :=
  if n < 0 then 45 :: (Nat.toDigits 10 n.natAbs).map Char.toNat
  else (Nat.toDigits 10 n.toNat).map Char.toNat

/-- Modelled from the spec: the host CRT's printf-style rendering of a
format template with a matching argument list (the behavior shared by
`_vscwprintf`, which measures it, and `_vsnwprintf_s`, which writes
it; neither primitive's code is in this repository).  `%s` (37, 115)
substitutes a string argument, `%d` (37, 100) the decimal rendering of
an `int` argument; every other code unit is copied verbatim. -/
def renderFormat : WStr → List PrintfArg → WStr
  | [], _ => []
  | 37 :: 115 :: rest, PrintfArg.str s :: args => s ++ renderFormat rest args
  | 37 :: 100 :: rest, PrintfArg.int n :: args => intDec n ++ renderFormat rest args
  | c :: rest, args => c :: renderFormat rest args

/-- Embedding of `win32::StringPrintf` on the success path.
The measure pass (`_vscwprintf`) yields the rendered length; the code
adds 1 for the terminating NUL, resizes the destination wstring to
that size (all zeroes), the render pass (`_vsnwprintf_s`) writes the
rendered text followed by a terminating NUL over the buffer, and
`pop_back` chops the trailing NUL. -/
def StringPrintf (format : WStr) (args : List PrintfArg) : WStr :=
  let rendered := renderFormat format args
  let length := rendered.length + 1
  let result : WStr := List.replicate length 0
  let written := rendered ++ [0] ++ result.drop (rendered.length + 1)
  written.dropLast

/-- Embedding of `win32::StringPrintf` with the CRT primitive's
failure mode exposed.  Modelled from the spec: the measuring/rendering
primitive either reports an encoding failure (`none`) — in which case
the fatal condition propagates to the caller as an error — or yields
the rendered text, on which the two-pass machinery of `StringPrintf`
runs and succeeds. -/
def StringPrintfChecked (crt : Option WStr) : Except Unit WStr :=
  match crt with
  | none => Except.error ()
  | some rendered =>
      Except.ok
        ((rendered ++ [0] ++
          (List.replicate (rendered.length + 1) (0 : Nat)).drop
            (rendered.length + 1)).dropLast)

/-- The resource string table of a module: maps a string id to the
stored text, `none` when the id is missing (or the module handle is
invalid, in which case every id is missing). -/
def ResourceTable := Nat → Option WStr

/-- Modelled from the spec: `::LoadString` called with
`nBufferMax = 0` (not code of this repository) stores a read-only
pointer to the resource text in `buffer` and returns the text's
length; on any lookup miss it returns 0. -/
def win32LoadString (table : ResourceTable) (stringId : Nat) : WStr × Nat :=
  match table stringId with
  | none => ([], 0)
  | some s => (s, s.length)

/-- Embedding of `win32::LoadStringResource`: calls `::LoadString`
with `nBufferMax = 0`; when the returned `len` is nonzero it builds
`std::wstring(buffer, len)` (the first `len` code units of the
buffer), otherwise it returns the empty wstring. -/
def LoadStringResource (table : ResourceTable) (stringId : Nat) : WStr :=
  let r := win32LoadString table stringId
  if r.2 ≠ 0 then r.1.take r.2 else []

/-- `win32::FormatByte` as a transformer of the process-wide state.
The source function's body reads only its parameter and local
variables and performs no write to any global, so its embedding
returns the state it was given. -/
def runFormatByte {α : Type} (b : Nat) (s : α) : WStr × α :=
  (FormatByte b, s)

/-- `win32::FormatWord` as a state transformer; no global access. -/
def runFormatWord {α : Type} (w : Nat) (s : α) : WStr × α :=
  (FormatWord w, s)

/-- `win32::FormatDword` as a state transformer; no global access. -/
def runFormatDword {α : Type} (dw : Nat) (s : α) : WStr × α :=
  (FormatDword dw, s)

/-- `win32::FormatHResult` as a state transformer; no global access. -/
def runFormatHResult {α : Type} (hr : Int) (s : α) : WStr × α :=
  (FormatHResult hr, s)

/-- `win32::StringPrintf` as a state transformer: the CRT primitives
read the format and arguments and write only the caller-owned buffer,
so the embedding returns the state it was given. -/
def runStringPrintf {α : Type} (format : WStr) (args : List PrintfArg)
    (s : α) : WStr × α :=
  (StringPrintf format args, s)

/-- The standard digit map is injective on nibble values. -/
lemma specHexDigit_inj {v1 v2 : Nat} (h1 : v1 < 16) (h2 : v2 < 16)
    (h : specHexDigit v1 = specHexDigit v2) : v1 = v2 := by
  unfold specHexDigit at h
  split_ifs at h <;> omega

/-- `FormatLowNibble` determines its argument's low nibble. -/
lemma formatLowNibble_inj {a b : Nat}
    (h : FormatLowNibble a = FormatLowNibble b) : a % 16 = b % 16 := by
  rw [formatLowNibble_eq, formatLowNibble_eq] at h
  exact specHexDigit_inj (Nat.mod_lt _ (by omega)) (Nat.mod_lt _ (by omega)) h

/-- C1: for every uint8 `b`, `FormatByte b` has length exactly 2,
every character is in `[0-9A-F]`, and the result is the standard
two-digit uppercase hex rendering of `b`; in particular
`FormatByte 0 = "00"`, `FormatByte 255 = "FF"`,
`FormatByte 0xAB = "AB"`. -/
theorem formatByte_hex_correct :
    (∀ b : Nat, b < 256 →
      (FormatByte b).length = 2 ∧
      (∀ c ∈ FormatByte b, IsUpperHexDigit c) ∧
      FormatByte b = specHexByte b) ∧
    FormatByte 0 = wof "00" ∧
    FormatByte 255 = wof "FF" ∧
    FormatByte 0xAB = wof "AB" := by
  refine ⟨fun b hb => ⟨rfl, ?_, ?_⟩, by decide, by decide, by decide⟩
  · intro c hc
    simp only [FormatByte, List.mem_cons, List.not_mem_nil, or_false] at hc
    rcases hc with h | h <;> (subst h; exact formatLowNibble_upperHex _)
  · have h16 : b / 16 % 16 = b / 16 := Nat.mod_eq_of_lt (by omega)
    simp [FormatByte, specHexByte, formatLowNibble_eq, h16]

/-- C1 witness: the universal part of `formatByte_hex_correct`
instantiated at `b = 0xAB = 171`. -/
theorem formatByte_hex_correct_witness :
    (FormatByte 171).length = 2 ∧
    (∀ c ∈ FormatByte 171, IsUpperHexDigit c) ∧
    FormatByte 171 = specHexByte 171 :=
  formatByte_hex_correct.1 171 (by decide)

/-- C2: for every uint16 `w`, `FormatWord w` has length exactly 4 and
equals `FormatByte (w >> 8) ++ FormatByte (w & 0xFF)`; in particular
`FormatWord 0x1234 = "1234"`, `FormatWord 0 = "0000"`,
`FormatWord 0xFFFF = "FFFF"`. -/
theorem formatWord_splits_into_bytes :
    (∀ w : Nat, w < 65536 →
      (FormatWord w).length = 4 ∧
      FormatWord w = FormatByte (w / 256) ++ FormatByte (w % 256)) ∧
    FormatWord 0x1234 = wof "1234" ∧
    FormatWord 0 = wof "0000" ∧
    FormatWord 0xFFFF = wof "FFFF" := by
  refine ⟨fun w hw => ⟨rfl, ?_⟩, by decide, by decide, by decide⟩
  have e1 : w / 256 % 256 = w / 256 := Nat.mod_eq_of_lt (by omega)
  have e2 : w % 256 % 256 = w % 256 := Nat.mod_eq_of_lt (Nat.mod_lt _ (by omega))
  simp [FormatWord, FormatByte, e1, e2]

/-- C2 witness: the universal part of `formatWord_splits_into_bytes`
instantiated at `w = 0x1234`. -/
theorem formatWord_splits_into_bytes_witness :
    (FormatWord 0x1234).length = 4 ∧
    FormatWord 0x1234 = FormatByte (0x1234 / 256) ++ FormatByte (0x1234 % 256) :=
  formatWord_splits_into_bytes.1 0x1234 (by decide)

/-- C3: for every uint32 `dw`, `FormatDword dw` has length exactly 8
and equals `FormatWord (dw >> 16) ++ FormatWord (dw & 0xFFFF)`; in
particular `FormatDword 0x12345678 = "12345678"`,
`FormatDword 0xFFFFFFFF = "FFFFFFFF"`, `FormatDword 0 = "00000000"`. -/
theorem formatDword_splits_into_words :
    (∀ dw : Nat, dw < 2 ^ 32 →
      (FormatDword dw).length = 8 ∧
      FormatDword dw = FormatWord (dw / 65536) ++ FormatWord (dw % 65536)) ∧
    FormatDword 0x12345678 = wof "12345678" ∧
    FormatDword 0xFFFFFFFF = wof "FFFFFFFF" ∧
    FormatDword 0 = wof "00000000" := by
  refine ⟨fun dw hdw => ⟨?_, ?_⟩, by decide, by decide, by decide⟩
  · simp [FormatDword, FormatWord]
  · have e1 : dw / 65536 % 65536 = dw / 65536 := Nat.mod_eq_of_lt (by omega)
    have e2 : dw % 65536 % 65536 = dw % 65536 :=
      Nat.mod_eq_of_lt (Nat.mod_lt _ (by omega))
    simp [FormatDword, e1, e2]

/-- C3 witness: the universal part of `formatDword_splits_into_words`
instantiated at `dw = 0x12345678`. -/
theorem formatDword_splits_into_words_witness :
    (FormatDword 0x12345678).length = 8 ∧
    FormatDword 0x12345678
      = FormatWord (0x12345678 / 65536) ++ FormatWord (0x12345678 % 65536) :=
  formatDword_splits_into_words.1 0x12345678 (by decide)

/-- C7: the nibble-to-digit base case is total, with no error branch:
for every byte `b` the masked value `v = b & 0x0F` lies in `[0, 15]`,
`FormatLowNibble` returns `'0' + v` when `v < 10` and `'A' + (v - 10)`
otherwise, and the returned character is always in `0`-`9` or
`A`-`F`. -/
theorem formatLowNibble_total_covered :
    ∀ b : Nat,
      b % 16 < 16 ∧
      (b % 16 < 10 → FormatLowNibble b = 48 + b % 16) ∧
      (10 ≤ b % 16 → FormatLowNibble b = 65 + (b % 16 - 10)) ∧
      IsUpperHexDigit (FormatLowNibble b) := by
  intro b
  refine ⟨Nat.mod_lt _ (by omega), ?_, ?_, formatLowNibble_upperHex b⟩
  · intro h
    rw [formatLowNibble_eq]
    unfold specHexDigit
    rw [if_pos h]
  · intro h
    rw [formatLowNibble_eq]
    unfold specHexDigit
    rw [if_neg (by omega)]

/-- C7 witness: `formatLowNibble_total_covered` at `b = 5` (digit
branch) and at `b = 14` (letter branch). -/
theorem formatLowNibble_total_covered_witness :
    FormatLowNibble 5 = 48 + 5 % 16 ∧
    FormatLowNibble 14 = 65 + (14 % 16 - 10) :=
  ⟨(formatLowNibble_total_covered 5).2.1 (by decide),
   (formatLowNibble_total_covered 14).2.2.1 (by decide)⟩

/-- C10: the hex formatters are injective on their input domains:
distinct uint8, uint16, uint32 values map to distinct strings, so the
numeric value is recoverable from the text. -/
theorem hexFormatters_injective :
    (∀ b1 b2 : Nat, b1 < 256 → b2 < 256 →
      FormatByte b1 = FormatByte b2 → b1 = b2) ∧
    (∀ w1 w2 : Nat, w1 < 65536 → w2 < 65536 →
      FormatWord w1 = FormatWord w2 → w1 = w2) ∧
    (∀ d1 d2 : Nat, d1 < 2 ^ 32 → d2 < 2 ^ 32 →
      FormatDword d1 = FormatDword d2 → d1 = d2) := by
  refine ⟨fun b1 b2 h1 h2 h => ?_, fun w1 w2 h1 h2 h => ?_,
    fun d1 d2 h1 h2 h => ?_⟩
  · simp only [FormatByte, List.cons.injEq, and_true] at h
    have e1 := formatLowNibble_inj h.1
    have e2 := formatLowNibble_inj h.2
    omega
  · simp only [FormatWord, List.cons.injEq, and_true] at h
    have e1 := formatLowNibble_inj h.1
    have e2 := formatLowNibble_inj h.2.1
    have e3 := formatLowNibble_inj h.2.2.1
    have e4 := formatLowNibble_inj h.2.2.2
    omega
  · simp only [FormatDword, FormatWord, List.cons_append, List.nil_append,
      List.cons.injEq, and_true] at h
    have e1 := formatLowNibble_inj h.1
    have e2 := formatLowNibble_inj h.2.1
    have e3 := formatLowNibble_inj h.2.2.1
    have e4 := formatLowNibble_inj h.2.2.2.1
    have e5 := formatLowNibble_inj h.2.2.2.2.1
    have e6 := formatLowNibble_inj h.2.2.2.2.2.1
    have e7 := formatLowNibble_inj h.2.2.2.2.2.2.1
    have e8 := formatLowNibble_inj h.2.2.2.2.2.2.2
    omega

/-- C10 witness: each injectivity statement of
`hexFormatters_injective` instantiated at a concrete input pair. -/
theorem hexFormatters_injective_witness :
    (171 : Nat) = 171 ∧ (0x1234 : Nat) = 0x1234 ∧
    (0x12345678 : Nat) = 0x12345678 :=
  ⟨hexFormatters_injective.1 171 171 (by decide) (by decide) rfl,
   hexFormatters_injective.2.1 0x1234 0x1234 (by decide) (by decide) rfl,
   hexFormatters_injective.2.2 0x12345678 0x12345678 (by decide) (by decide) rfl⟩

/-- C4: `StringPrintf` measures the exact rendered length and returns
a string of exactly that logical length, with no trailing NUL
terminator included in the content (the returned string is exactly the
rendered text); in particular
`StringPrintf "Hello %s, you are %d years old." "Ann" 30
  = "Hello Ann, you are 30 years old."`. -/
theorem stringPrintf_exact_length :
    (∀ (format : WStr) (args : List PrintfArg),
      (StringPrintf format args).length = (renderFormat format args).length ∧
      StringPrintf format args = renderFormat format args) ∧
    StringPrintf (wof "Hello %s, you are %d years old.")
        [PrintfArg.str (wof "Ann"), PrintfArg.int 30]
      = wof "Hello Ann, you are 30 years old." := by
  refine ⟨fun format args => ?_, by decide⟩
  have h : StringPrintf format args = renderFormat format args := by
    simp [StringPrintf]
  exact ⟨by rw [h], h⟩

/-- C5: `StringPrintf` signals a fatal condition exactly when the
underlying CRT primitive reports an encoding failure; in every other
case it succeeds with the rendered text, and for the empty format
template it returns the empty string rather than failing. -/
theorem stringPrintf_fails_only_on_encoding_error :
    (∀ rendered : WStr,
      StringPrintfChecked (some rendered) = Except.ok rendered) ∧
    StringPrintfChecked none = Except.error () ∧
    (∀ args : List PrintfArg, StringPrintf (wof "") args = wof "") := by
  refine ⟨fun rendered => ?_, rfl, fun args => ?_⟩
  · simp [StringPrintfChecked]
  · simp [StringPrintf, wof, renderFormat]

/-- C6: `FormatHResult hr` reinterprets the signed 32-bit `hr`
bit-for-bit as the unsigned 32-bit value `u` (`u = hr` for
nonnegative `hr`, `u = hr + 2^32` for negative `hr`) and returns
exactly `FormatDword u`; in particular `S_OK = 0` renders as
`"00000000"` and `E_INVALIDARG` (bit pattern `0x80070057`, i.e. the
signed value `-2147024809`) renders as `"80070057"`. -/
theorem formatHResult_twos_complement :
    (∀ hr : Int, -(2 ^ 31) ≤ hr → hr < 2 ^ 31 →
      ∃ u : Nat, u < 2 ^ 32 ∧
        (0 ≤ hr → (u : Int) = hr) ∧
        (hr < 0 → (u : Int) = hr + 2 ^ 32) ∧
        FormatHResult hr = FormatDword u) ∧
    FormatHResult 0 = wof "00000000" ∧
    FormatHResult (-2147024809) = wof "80070057" := by
  refine ⟨fun hr h1 h2 =>
    ⟨(hr % (2 ^ 32 : Int)).toNat, ?_, ?_, ?_, rfl⟩, by decide, by decide⟩ <;>
    omega

/-- C6 witness: the universal part of `formatHResult_twos_complement`
instantiated at the E_INVALIDARG bit pattern. -/
theorem formatHResult_twos_complement_witness :
    ∃ u : Nat, u < 2 ^ 32 ∧
      (0 ≤ (-2147024809 : Int) → (u : Int) = -2147024809) ∧
      ((-2147024809 : Int) < 0 → (u : Int) = -2147024809 + 2 ^ 32) ∧
      FormatHResult (-2147024809) = FormatDword u :=
  formatHResult_twos_complement.1 (-2147024809) (by decide) (by decide)

/-- C8: `LoadStringResource` signals no errors: on a lookup miss it
returns the empty string, on a hit it returns exactly the stored
resource text, and a caller cannot distinguish "not found" from
"found but empty". -/
theorem loadStringResource_miss_is_empty :
    (∀ (table : ResourceTable) (stringId : Nat),
      (table stringId = none → LoadStringResource table stringId = []) ∧
      (∀ s, table stringId = some s → LoadStringResource table stringId = s)) ∧
    (∀ (t1 t2 : ResourceTable) (i1 i2 : Nat),
      t1 i1 = none → t2 i2 = some [] →
      LoadStringResource t1 i1 = LoadStringResource t2 i2) := by
  have key : ∀ (table : ResourceTable) (i : Nat),
      (table i = none → LoadStringResource table i = []) ∧
      (∀ s, table i = some s → LoadStringResource table i = s) := by
    intro table i
    constructor
    · intro h
      simp [LoadStringResource, win32LoadString, h]
    · intro s h
      simp only [LoadStringResource, win32LoadString, h]
      by_cases hs : s.length = 0
      · simp [hs, List.length_eq_zero.mp hs]
      · simp [hs, List.take_length]
  exact ⟨key, fun t1 t2 i1 i2 h1 h2 => by
    rw [(key t1 i1).1 h1, (key t2 i2).2 [] h2]⟩

/-- C8 witness: `loadStringResource_miss_is_empty` at a concrete
missing id and a concrete stored string. -/
theorem loadStringResource_miss_is_empty_witness :
    LoadStringResource (fun _ => none) 5 = [] ∧
    LoadStringResource (fun _ => some (wof "Hi")) 7 = wof "Hi" :=
  ⟨(loadStringResource_miss_is_empty.1 (fun _ => none) 5).1 rfl,
   (loadStringResource_miss_is_empty.1 (fun _ => some (wof "Hi")) 7).2 _ rfl⟩

/-- C9: every formatter is deterministic and touches no process-wide
state: run as state transformers, two runs from any two states return
identical output, and the state after a call is the state before
it. -/
theorem formatters_deterministic_stateless :
    ∀ (α : Type) (s t : α) (b w dw : Nat) (hr : Int)
      (format : WStr) (args : List PrintfArg),
      ((runFormatByte b s).1 = (runFormatByte b t).1 ∧
        (runFormatByte b s).2 = s) ∧
      ((runFormatWord w s).1 = (runFormatWord w t).1 ∧
        (runFormatWord w s).2 = s) ∧
      ((runFormatDword dw s).1 = (runFormatDword dw t).1 ∧
        (runFormatDword dw s).2 = s) ∧
      ((runFormatHResult hr s).1 = (runFormatHResult hr t).1 ∧
        (runFormatHResult hr s).2 = s) ∧
      ((runStringPrintf format args s).1 = (runStringPrintf format args t).1 ∧
        (runStringPrintf format args s).2 = s) :=
  fun _ _ _ _ _ _ _ _ _ =>
    ⟨⟨rfl, rfl⟩, ⟨rfl, rfl⟩, ⟨rfl, rfl⟩, ⟨rfl, rfl⟩, ⟨rfl, rfl⟩⟩

end Win32StringUtils
